import Mathlib

/-!
Verification development for the phototype repository.

Part A embeds `src/frontend-service/app.py` (the only source file): JSON
values, the on-disk folders `uploads/` and `json/` as finite maps, the
external collaborators (werkzeug `secure_filename`, the `json` module,
`extract_pdf_excerpts`, `uuid`, `datetime`) as an abstract environment, and
the Flask route handlers as pure functions from state and request to
response and state.

Part B embeds the Evidence Linker of the specification.  That component has
no code in the repository (only the call site of `extract_pdf_excerpts`
exists), so its definitions are modelled from the specification text.
-/

namespace Phototype

/-- JSON values, as produced by the json module and jsonify. -/
inductive Json where
  | null
  | bool (b : Bool)
  | num (n : Int)
  | str (s : String)
  | arr (elems : List Json)
  | obj (fields : List (String × Json))

/-- Lookup of a key in a JSON object body (Python dict access or dict.get). -/
def dictGet (kvs : List (String × Json)) (k : String) : Option Json :=
  (kvs.find? (fun kv => decide (kv.1 = k))).map (fun kv => kv.2)

/-- Python truthiness of a JSON value. -/
def jsonTruthy : Json → Bool
  | Json.null => false
  | Json.bool b => b
  | Json.num n => decide (n ≠ 0)
  | Json.str s => decide (s ≠ "")
  | Json.arr l => !l.isEmpty
  | Json.obj l => !l.isEmpty

/-- Truthiness of a possibly absent value (dict.get returning None is falsy). -/
def truthyOpt : Option Json → Bool
  | none => false
  | some j => jsonTruthy j

/-- A folder on disk: file name to raw file content. -/
abbrev FS := String → Option String

def fsInsert (fs : FS) (k v : String) : FS :=
  fun q => if q = k then some v else fs q

def fsErase (fs : FS) (k : String) : FS :=
  fun q => if q = k then none else fs q

/-- Server-side state: the two folders the app reads and writes
(`UPLOAD_FOLDER = uploads`, `JSON_FOLDER = json`). -/
structure AppState where
  uploads : FS
  jsonFolder : FS

/-- External collaborators of app.py that are imported but not defined in the
given source: werkzeug secure_filename, the json module, the excerpt helper
from services.pdf_excerpt_extractor, uuid.uuid4 and datetime.now, and the
text of a caught exception. -/
structure Env where
  secure_filename : String → String
  json_loads : String → Option Json
  json_dumps : Json → String
  extract_pdf_excerpts : String → Json → Json
  uuid4 : String
  now_date : String
  now_iso : String
  exc_message : String

/-- An HTTP response: status code plus JSON body (send_file bodies are
modelled as the file content wrapped in Json.str). -/
structure HttpResponse where
  status : Nat
  body : Json

-- Configuration constants of app.py (lines 13-17).

def UPLOAD_FOLDER : String := "uploads"

def JSON_FOLDER : String := "json"

def ALLOWED_EXTENSIONS : List String := ["pdf"]

def MAX_FILE_SIZE : Nat := 16 * 1024 * 1024

/-- Python os.path.join for a relative folder and file name. -/
def pathJoin (folder name : String) : String := folder ++ "/" ++ name

/-- Python len on a byte or character string. -/
def pyLen (s : String) : Nat := s.data.length

/-- Python str.lower. -/
def pyLower (s : String) : String := String.mk (s.data.map Char.toLower)

/-- Python str.upper. -/
def pyUpper (s : String) : String := String.mk (s.data.map Char.toUpper)

/-- The characters after the last separator, Python s.rsplit(sep, 1)[1]
(meaningful when the separator occurs in s). -/
def afterLastSep (sep : Char) (s : String) : String :=
  String.mk ((s.data.reverse.takeWhile (fun c => decide (c ≠ sep))).reverse)

/-- The characters before the last separator when it occurs, otherwise the
whole string: Python s.rsplit(sep, 1)[0]. -/
def beforeLastSep (sep : Char) (s : String) : String :=
  if sep ∈ s.data then
    String.mk (((s.data.reverse.dropWhile (fun c => decide (c ≠ sep))).drop 1).reverse)
  else s

/-- Python str.replace on lists of characters: leftmost, non-overlapping,
all occurrences; fuel bounds the recursion by the text length. -/
def pyReplaceList (pat rep : List Char) : Nat → List Char → List Char
  | 0, l => l
  | _, [] => []
  | Nat.succ fuel, c :: rest =>
      if pat ≠ [] ∧ (c :: rest).take pat.length = pat then
        rep ++ pyReplaceList pat rep fuel ((c :: rest).drop pat.length)
      else
        c :: pyReplaceList pat rep fuel rest

/-- Python str.replace(pat, rep). -/
def pyReplace (s pat rep : String) : String :=
  String.mk (pyReplaceList pat.data rep.data (s.data.length + 1) s.data)

/-- app.py lines 19-21: allowed_file checks that the name has a dot and that
the text after the last dot, lowercased, is an allowed extension. -/
def allowed_file (filename : String) : Bool :=
  decide ('.' ∈ filename.data) &&
    decide (pyLower (afterLastSep '.' filename) ∈ ALLOWED_EXTENSIONS)

/-- app.py lines 23-74: the mock PDF processor.  It receives the upload
folder content as the file system it could read pdf_path from; the body
fabricates a fixed structure and never consults either argument. -/
def process_pdf_to_json (env : Env) (fs : FS) (pdf_path output_filename : String) : Json :=
  Json.obj [
    ("fields", Json.obj [
      ("contract_number", Json.str ("AUTO_" ++ pyUpper (String.mk (env.uuid4.data.take 8)))),
      ("date", Json.str env.now_date),
      ("seller", Json.obj [
        ("name", Json.str "Extracted Company Name"),
        ("location", Json.str "Extracted Location"),
        ("representative", Json.str "Extracted Representative"),
        ("authority", Json.str "Extracted Authority Document")]),
      ("buyer", Json.obj [
        ("name", Json.str "Extracted Buyer Name"),
        ("location", Json.str "Extracted Buyer Location"),
        ("director", Json.str "Extracted Director Name"),
        ("authority", Json.str "Extracted Buyer Authority")]),
      ("subject_of_contract", Json.obj [
        ("description", Json.str "Extracted contract description from PDF"),
        ("quantity", Json.str "Extracted quantity"),
        ("unit", Json.str "Extracted unit"),
        ("origin_country", Json.str "Extracted Origin Country")]),
      ("price_and_total_cost", Json.obj [
        ("price", Json.str "Pricing method extracted from PDF"),
        ("currency", Json.str "USD"),
        ("total_cost", Json.str "Amount extracted from PDF")]),
      ("delivery_documents", Json.obj [
        ("deadline", Json.str "Deadline extracted from PDF"),
        ("required_documents", Json.arr [
          Json.str "Invoice",
          Json.str "Bill of Lading",
          Json.str "Certificate of Origin",
          Json.str "Packing List"])])]),
    ("text", Json.str ("Full text extracted from PDF file: " ++ output_filename)),
    ("metadata", Json.obj [
      ("processed_date", Json.str env.now_iso),
      ("source_file", Json.str output_filename),
      ("processing_method", Json.str "Automated PDF extraction")])]

/-- app.py lines 144-153: GET /uploads/[filename], serving an uploaded PDF. -/
def serve_uploaded_file (env : Env) (st : AppState) (filename0 : String) : HttpResponse :=
  let filename := env.secure_filename filename0
  match st.uploads filename with
  | none => ⟨404, Json.obj [("error", Json.str "File not found")]⟩
  | some content => ⟨200, Json.str content⟩

/-- app.py lines 179-212: GET /api/pdf-excerpts/[filename].  Loads the JSON
twin of the PDF, checks both files exist, and returns the excerpt helper's
result unchanged; json decoding errors fall into the catch-all handler. -/
def get_pdf_excerpts (env : Env) (st : AppState) (filename0 : String) : HttpResponse :=
  let filename := env.secure_filename filename0
  let json_filename := pyReplace filename ".pdf" ".json"
  match st.jsonFolder json_filename with
  | none => ⟨404, Json.obj [("error", Json.str "JSON file not found")]⟩
  | some raw =>
    match env.json_loads raw with
    | none => ⟨500, Json.obj [("error",
        Json.str ("Failed to extract excerpts: " ++ env.exc_message))]⟩
    | some json_data =>
      match st.uploads filename with
      | none => ⟨404, Json.obj [("error", Json.str "PDF file not found")]⟩
      | some _ =>
        let pdf_path := pathJoin UPLOAD_FOLDER filename
        ⟨200, Json.obj [
          ("success", Json.bool true),
          ("excerpts", env.extract_pdf_excerpts pdf_path json_data),
          ("filename", Json.str filename)]⟩

/-- The uploaded file part of a POST /upload request. -/
structure UploadedFile where
  filename : String
  content : String

/-- The 400 responses of upload_pdf: jsonify success False plus an error. -/
def errResp (msg : String) : HttpResponse :=
  ⟨400, Json.obj [("success", Json.bool false), ("error", Json.str msg)]⟩

/-- app.py lines 214-274: POST /upload.  Validates the file part, saves the
PDF, writes the generated JSON, then removes the PDF; removal failure
(removeFails) is swallowed.  The model's file writes always succeed, which
matches every claim's hypotheses being about the non-exceptional paths. -/
def upload_pdf (env : Env) (st : AppState) (filePart : Option UploadedFile)
    (removeFails : Bool) : HttpResponse × AppState :=
  match filePart with
  | none => (errResp "No file provided", st)
  | some file =>
    if file.filename = "" then (errResp "No file selected", st)
    else if allowed_file file.filename = false then
      (errResp "Only PDF files are allowed", st)
    else if MAX_FILE_SIZE < pyLen file.content then
      (errResp "File too large. Maximum size is 16MB", st)
    else if file.filename = "" then (errResp "Invalid filename", st)
    else
      let filename := env.secure_filename file.filename
      let upload_path := pathJoin UPLOAD_FOLDER filename
      let st1 : AppState := ⟨fsInsert st.uploads filename file.content, st.jsonFolder⟩
      let json_filename := beforeLastSep '.' filename ++ ".json"
      let json_data := process_pdf_to_json env st1.uploads upload_path filename
      let st2 : AppState := ⟨st1.uploads,
        fsInsert st1.jsonFolder json_filename (env.json_dumps json_data)⟩
      let st3 : AppState :=
        if removeFails then st2 else ⟨fsErase st2.uploads filename, st2.jsonFolder⟩
      (⟨200, Json.obj [
        ("success", Json.bool true),
        ("message", Json.str "PDF processed successfully"),
        ("filename", Json.str json_filename)]⟩, st3)

/-- app.py lines 276-291: POST /api/validation.  Reads three fields from the
JSON body, answers success when all are truthy, and touches no state; a
missing or non-object body raises inside the try and yields a 500. -/
def save_validation (st : AppState) (exc_message : String) (body : Option Json) :
    HttpResponse × AppState :=
  match body with
  | some (Json.obj kvs) =>
    let filename := dictGet kvs "filename"
    let field_path := dictGet kvs "field_path"
    let status := dictGet kvs "status"
    if truthyOpt filename && truthyOpt field_path && truthyOpt status then
      (⟨200, Json.obj [("success", Json.bool true),
        ("message", Json.str "Validation saved")]⟩, st)
    else
      (⟨400, Json.obj [("error", Json.str "Missing required fields")]⟩, st)
  | _ => (⟨500, Json.obj [("error", Json.str exc_message)]⟩, st)

/-!
Part B: the Evidence Linker.  None of this component exists in the given
source (spec section 1: `extract_pdf_excerpts` is only imported and called),
so every definition below is modelled from the specification text, sections
3, 4 and 7.
-/

/-- Modelled from the spec: error kinds of section 7, for the missing
Evidence Linker implementation (DocumentEmptyError, OutOfRangeError). -/
inductive LinkError where
  | documentEmpty
  | outOfRange
deriving DecidableEq

/-- Modelled from the spec: result of a fallible linker operation. -/
inductive LResult (α : Type) where
  | error (e : LinkError)
  | ok (a : α)
deriving DecidableEq

/-- Modelled from the spec, section 3: DocumentText holds the raw extracted
text and the ordered page-break offsets. -/
structure DocumentText where
  raw_text : List Char
  page_breaks : List Nat

/-- Modelled from the spec, section 3: the page-break offsets are strictly
increasing and lie within the text. -/
def DocumentText.WellFormed (d : DocumentText) : Prop :=
  d.page_breaks.Chain' (· < ·) ∧ ∀ b ∈ d.page_breaks, b ≤ d.raw_text.length

/-- Modelled from the spec, section 4.1: the index of the last page break at
or before the offset, or page 0 when there is none.  Total core used for
span construction, where offsets are in range by construction. -/
def pageIdx (d : DocumentText) (offset : Nat) : Nat :=
  d.page_breaks.countP (fun b => decide (b ≤ offset)) - 1

/-- Modelled from the spec, section 4.1: page_of with its contract; fails
with OutOfRangeError on a negative offset or one beyond the text length. -/
def page_of (d : DocumentText) (offset : Int) : LResult Nat :=
  if offset < 0 ∨ (d.raw_text.length : Int) < offset then LResult.error LinkError.outOfRange
  else LResult.ok (pageIdx d offset.toNat)

/-- Modelled from the spec, glossary: one component of a field path. -/
inductive PathKey where
  | key (k : String)
  | idx (i : Nat)
deriving DecidableEq

mutual
/-- Modelled from the spec, sections 4.2 and 9: the nested field mapping as
a tagged variant of scalars, objects and arrays. -/
inductive FieldTree where
  | str (s : String)
  | int (n : Int)
  | bool (b : Bool)
  | obj (fields : FieldObj)
  | arr (elems : FieldArr)
/-- Modelled from the spec: an object's key/subtree entries in insertion
order. -/
inductive FieldObj where
  | nil
  | cons (k : String) (t : FieldTree) (rest : FieldObj)
/-- Modelled from the spec: an array's elements in index order. -/
inductive FieldArr where
  | nil
  | cons (t : FieldTree) (rest : FieldArr)
end

mutual
/-- Modelled from the spec, section 4.2: the Field Flattener.  Object keys
in insertion order, array elements by ascending index, scalars stringified
canonically; empty string values are skipped. -/
def flatten : FieldTree → List (List PathKey × String)
  | FieldTree.str s => if s = "" then [] else [([], s)]
  | FieldTree.int n => [([], toString n)]
  | FieldTree.bool b => [([], if b then "true" else "false")]
  | FieldTree.obj fields => flattenObj fields
  | FieldTree.arr elems => flattenArr 0 elems

/-- Modelled from the spec: flattening of object entries. -/
def flattenObj : FieldObj → List (List PathKey × String)
  | FieldObj.nil => []
  | FieldObj.cons k t rest =>
      (flatten t).map (fun pv => (PathKey.key k :: pv.1, pv.2)) ++ flattenObj rest

/-- Modelled from the spec: flattening of array elements from a starting
index. -/
def flattenArr : Nat → FieldArr → List (List PathKey × String)
  | _, FieldArr.nil => []
  | i, FieldArr.cons t rest =>
      (flatten t).map (fun pv => (PathKey.idx i :: pv.1, pv.2)) ++ flattenArr (i + 1) rest
end

/-- Modelled from the spec, section 6: a field path serialized as a dotted
and bracketed string key. -/
def joinPath (p : List PathKey) : String :=
  p.foldl (fun acc pk =>
    match pk with
    | PathKey.key k => if acc = "" then k else acc ++ "." ++ k
    | PathKey.idx i => acc ++ "[" ++ toString i ++ "]") ""

/-- Modelled from the spec, section 3: an evidence span, a half-open offset
range with its page and score; scores are exact rationals in [0, 1]. -/
structure EvidenceSpan where
  start : Nat
  stop : Nat
  page : Nat
  score : ℚ
deriving DecidableEq

/-- Modelled from the spec, section 6: configuration with its defaults. -/
structure LinkConfig where
  score_floor : ℚ := mkRat 3 5
  max_results_per_field : Nat := 3
  window_step_fraction : ℚ := mkRat 1 2

/-- Modelled from the spec: the default configuration of section 6. -/
def defaultConfig : LinkConfig := {}

/-- Modelled from the spec, section 4.3: normalization used by matching;
case folding plus mapping every whitespace character to a plain space, which
keeps offsets stable. -/
def normChar (c : Char) : Char := if c.isWhitespace then ' ' else c.toLower

/-- Modelled from the spec: normalization of a character sequence. -/
def normalize (l : List Char) : List Char := l.map normChar

/-- Modelled from the spec, section 8: plain whitespace normalization,
without case folding, as the testable property words it. -/
def wsNormalize (l : List Char) : List Char :=
  l.map (fun c => if c.isWhitespace then ' ' else c)

/-- Modelled from the spec: the slice of the text a span covers. -/
def sliceOf (text : List Char) (s : EvidenceSpan) : List Char :=
  (text.drop s.start).take (s.stop - s.start)

/-- Modelled from the spec, section 4.3 stage 1: does the value match the
text at offset i, case-insensitively and whitespace-normalized. -/
def matchAt (text value : List Char) (i : Nat) : Bool :=
  decide (normalize ((text.drop i).take value.length) = normalize value)

/-- Modelled from the spec, section 4.3 stage 1: all non-overlapping
occurrences, scanned left to right; fuel bounds the scan by the text
length. -/
def exactLoop (text value : List Char) : Nat → Nat → List (Nat × Nat)
  | 0, _ => []
  | Nat.succ fuel, i =>
      if i + value.length ≤ text.length then
        if matchAt text value i then
          (i, i + value.length) :: exactLoop text value fuel (i + value.length)
        else
          exactLoop text value fuel (i + 1)
      else []

/-- Modelled from the spec: stage-1 spans, each with score 1. -/
def exactSpans (d : DocumentText) (value : List Char) : List EvidenceSpan :=
  (exactLoop d.raw_text value (d.raw_text.length + 1) 0).map
    (fun se => ⟨se.1, se.2, pageIdx d se.1, 1⟩)

/-- Modelled from the spec, section 4.2/4.3: tokens of the text with their
starting offsets; token boundaries are normalized whitespace. -/
def tokenizeFrom : List Char → Nat → Option (Nat × List Char) → List (Nat × List Char)
  | [], _, none => []
  | [], _, some st => [(st.1, st.2.reverse)]
  | c :: rest, i, none =>
      if normChar c = ' ' then tokenizeFrom rest (i + 1) none
      else tokenizeFrom rest (i + 1) (some (i, [c]))
  | c :: rest, i, some st =>
      if normChar c = ' ' then (st.1, st.2.reverse) :: tokenizeFrom rest (i + 1) none
      else tokenizeFrom rest (i + 1) (some (st.1, c :: st.2))

/-- Modelled from the spec, glossary: Jaccard similarity of two token
sets. -/
def jaccard (a b : List (List Char)) : ℚ :=
  let da := a.dedup
  let db := b.dedup
  let inter := (da.filter (fun t => decide (t ∈ db))).length
  let union := (da ++ db).dedup.length
  if union = 0 then 0 else (inter : ℚ) / (union : ℚ)

/-- Modelled from the spec, section 4.3: window step from the configured
fraction of a length, with minimum step 1. -/
def stepOf (cfg : LinkConfig) (len : Nat) : Nat :=
  max 1 (Rat.floor (cfg.window_step_fraction * (len : ℚ))).toNat

/-- Modelled from the spec, section 4.3 stage 2: token-set match over
sliding windows of the value's token length, keeping windows scoring above
the floor. -/
def tokenStage (d : DocumentText) (value : List Char) (cfg : LinkConfig) :
    List EvidenceSpan :=
  let toks := tokenizeFrom d.raw_text 0 none
  let vtoks := (tokenizeFrom value 0 none).map (fun t => t.2)
  let k := vtoks.length
  if k = 0 then []
  else
    let step := stepOf cfg k
    ((List.range (toks.length + 1)).filter
        (fun s => decide (s % step = 0) && decide (s + k ≤ toks.length))).filterMap
      (fun s =>
        match (toks.drop s).take k with
        | [] => none
        | w0 :: wrest =>
          let window := w0 :: wrest
          let score := jaccard (window.map (fun t => normalize t.2)) (vtoks.map normalize)
          if cfg.score_floor < score then
            let wlast := window.getLastD w0
            some ⟨w0.1, wlast.1 + wlast.2.length, pageIdx d w0.1, score⟩
          else none)

/-- Modelled from the spec: one row update of the Levenshtein dynamic
program; diag and left carry the previous diagonal and freshly computed
cell. -/
def editRowStep (ac : Char) : List (Char × Nat) → Nat → Nat → List Nat
  | [], _, _ => []
  | (bc, pj) :: rest, diag, left =>
      let nj := min (left + 1) (min (pj + 1) (diag + (if bc = ac then 0 else 1)))
      nj :: editRowStep ac rest pj nj

/-- Modelled from the spec: the next Levenshtein row for one character of
the first word. -/
def editRow (b : List Char) (prev : List Nat) (ac : Char) : List Nat :=
  let h := prev.headD 0
  (h + 1) :: editRowStep ac (b.zip prev.tail) h (h + 1)

/-- Modelled from the spec, section 4.3 stage 3: Levenshtein edit
distance. -/
def editDistance (a b : List Char) : Nat :=
  (a.foldl (editRow b) (List.range (b.length + 1))).getLastD 0

/-- Modelled from the spec, section 4.3 stage 3: fuzzy character match over
sliding windows sized within thirty percent of the value length, scored by
normalized edit-distance similarity, keeping windows above the floor. -/
def fuzzyStage (d : DocumentText) (value : List Char) (cfg : LinkConfig) :
    List EvidenceSpan :=
  let m := value.length
  let lo := m - 3 * m / 10
  let hi := m + 3 * m / 10
  let step := stepOf cfg m
  (((List.range (hi + 1)).filter (fun L => decide (lo ≤ L) && decide (1 ≤ L))).map
    (fun L =>
      ((List.range (d.raw_text.length + 1)).filter
          (fun s => decide (s % step = 0) && decide (s + L ≤ d.raw_text.length))).filterMap
        (fun s =>
          let window := (d.raw_text.drop s).take L
          let dist := editDistance (normalize window) (normalize value)
          let score : ℚ := 1 - (dist : ℚ) / (max m L : ℚ)
          if cfg.score_floor < score then some ⟨s, s + L, pageIdx d s, score⟩
          else none))).flatten

/-- Modelled from the spec, section 4.3: the Excerpt Matcher.  Stages in
priority order, stopping at the first stage with a result above the score
floor; an empty value yields no spans. -/
def matchField (d : DocumentText) (value : List Char) (cfg : LinkConfig) :
    List EvidenceSpan :=
  if value = [] then []
  else
    let s1 := exactSpans d value
    if s1.any (fun sp => decide (cfg.score_floor < sp.score)) then s1
    else
      let s2 := tokenStage d value cfg
      if s2.isEmpty then fuzzyStage d value cfg else s2

/-- Modelled from the spec, section 4.3: ordering of results, higher score
first, ties broken by earlier start offset. -/
def spanBefore (a b : EvidenceSpan) : Bool :=
  decide (b.score < a.score) || (decide (a.score = b.score) && decide (a.start ≤ b.start))

/-- Modelled from the spec: insertion into a ranked list. -/
def insertSpan (s : EvidenceSpan) : List EvidenceSpan → List EvidenceSpan
  | [] => [s]
  | t :: ts => if spanBefore s t then s :: t :: ts else t :: insertSpan s ts

/-- Modelled from the spec: insertion sort by rank. -/
def sortSpans (l : List EvidenceSpan) : List EvidenceSpan := l.foldr insertSpan []

/-- Modelled from the spec: length of a span's range. -/
def spanLen (s : EvidenceSpan) : Nat := s.stop - s.start

/-- Modelled from the spec, section 4.4: length of the overlap of two
span ranges. -/
def overlapLen (a b : EvidenceSpan) : Nat := min a.stop b.stop - max a.start b.start

/-- Modelled from the spec, section 4.4: do two spans overlap by more than
fifty percent of the shorter one's length. -/
def tooMuchOverlap (a b : EvidenceSpan) : Bool :=
  decide (min (spanLen a) (spanLen b) < 2 * overlapLen a b)

/-- Modelled from the spec, section 8: the overlap-merge invariant relation,
the overlap of the two spans is at most fifty percent of the shorter span's
length. -/
def NoExcessOverlap (a b : EvidenceSpan) : Prop :=
  2 * overlapLen a b ≤ min (spanLen a) (spanLen b)

/-- Modelled from the spec, section 4.4: scanning best-first, a span that
overlaps an already kept (hence higher-ranked) span by more than half is
merged into it, that is, dropped. -/
def mergeKeep (acc : List EvidenceSpan) (s : EvidenceSpan) : List EvidenceSpan :=
  if acc.any (fun t => tooMuchOverlap t s) then acc else acc ++ [s]

/-- Modelled from the spec, section 4.4: overlap merging within one field's
ranked results. -/
def mergeSpans (l : List EvidenceSpan) : List EvidenceSpan := l.foldl mergeKeep []

/-- Modelled from the spec, section 4.4: the per-field pipeline, match then
rank then merge then truncate to max_results_per_field. -/
def processField (d : DocumentText) (value : List Char) (cfg : LinkConfig) :
    List EvidenceSpan :=
  (mergeSpans (sortSpans (matchField d value cfg))).take cfg.max_results_per_field

/-- Modelled from the spec, section 4.4: the Evidence Linker orchestrator.
Fails fast on an empty document, otherwise emits one entry per flattened
field, in path order, possibly with an empty span list. -/
def link (d : DocumentText) (fm : FieldTree) (cfg : LinkConfig) :
    LResult (List (String × List EvidenceSpan)) :=
  if d.raw_text.isEmpty then LResult.error LinkError.documentEmpty
  else LResult.ok ((flatten fm).map (fun e => (joinPath e.1, processField d e.2.data cfg)))

/-!
Concrete fixtures used by witness theorems.
-/

/-- A concrete environment: identity secure_filename, a one-entry json
decoder, and an excerpt helper that records its arguments. -/
def envW : Env :=
  ⟨fun s => s,
   fun r => if r = "RAW" then some (Json.num 5) else none,
   fun _ => "DUMP",
   fun p j => Json.arr [Json.str p, j],
   "abcdef12", "01 January 2026", "2026-01-01T00:00:00", "boom"⟩

/-- A concrete state with one uploaded PDF and its JSON twin. -/
def stW : AppState :=
  ⟨fun k => if k = "a.pdf" then some "PDFBYTES" else none,
   fun k => if k = "a.json" then some "RAW" else none⟩

/-- A concrete empty state. -/
def stEmpty : AppState := ⟨fun _ => none, fun _ => none⟩

/-- A concrete file content one byte over the configured size limit. -/
def bigContent : String := String.mk (List.replicate (MAX_FILE_SIZE + 1) 'a')

/-!
General lemmas about the helpers.
-/

theorem dropWhile_of_mem_sep (sep : Char) :
    ∀ l : List Char, sep ∈ l →
      ∃ t, l.dropWhile (fun c => decide (c ≠ sep)) = sep :: t := by
  intro l hl
  induction l with
  | nil => cases hl
  | cons c cs ih =>
    by_cases hc : c = sep
    · subst hc
      exact ⟨cs, by simp [List.dropWhile_cons]⟩
    · have hcs : sep ∈ cs := by
        rcases List.mem_cons.mp hl with h | h
        · exact absurd h.symm hc
        · exact h
      obtain ⟨t, ht⟩ := ih hcs
      exact ⟨t, by simpa [List.dropWhile_cons, hc] using ht⟩

theorem takeWhile_append_sep (sep : Char) (ys : List Char) :
    ∀ xs : List Char, (∀ x ∈ xs, x ≠ sep) →
      (xs ++ sep :: ys).takeWhile (fun c => decide (c ≠ sep)) = xs := by
  intro xs h
  induction xs with
  | nil => simp [List.takeWhile_cons]
  | cons x xs ih =>
    have hx : x ≠ sep := h x (List.mem_cons_self x xs)
    have hxs : ∀ y ∈ xs, y ≠ sep := fun y hy => h y (List.mem_cons_of_mem x hy)
    simpa [List.takeWhile_cons, hx] using ih hxs

/-!
Claim theorems about the Flask handlers.
-/

/-- Claim C1: process_pdf_to_json never reads the file at pdf_path: its
result is the same for every file-system content and every pdf_path, and it
is exactly the fixed placeholder structure, with a fresh contract number
and the current date filled in and a text field built from the output file
name alone. -/
theorem process_pdf_to_json_ignores_input (env : Env) (fs fs' : FS)
    (pdf_path pdf_path' output_filename : String) :
    process_pdf_to_json env fs pdf_path output_filename =
      process_pdf_to_json env fs' pdf_path' output_filename ∧
    process_pdf_to_json env fs pdf_path output_filename = Json.obj [
      ("fields", Json.obj [
        ("contract_number", Json.str ("AUTO_" ++ pyUpper (String.mk (env.uuid4.data.take 8)))),
        ("date", Json.str env.now_date),
        ("seller", Json.obj [
          ("name", Json.str "Extracted Company Name"),
          ("location", Json.str "Extracted Location"),
          ("representative", Json.str "Extracted Representative"),
          ("authority", Json.str "Extracted Authority Document")]),
        ("buyer", Json.obj [
          ("name", Json.str "Extracted Buyer Name"),
          ("location", Json.str "Extracted Buyer Location"),
          ("director", Json.str "Extracted Director Name"),
          ("authority", Json.str "Extracted Buyer Authority")]),
        ("subject_of_contract", Json.obj [
          ("description", Json.str "Extracted contract description from PDF"),
          ("quantity", Json.str "Extracted quantity"),
          ("unit", Json.str "Extracted unit"),
          ("origin_country", Json.str "Extracted Origin Country")]),
        ("price_and_total_cost", Json.obj [
          ("price", Json.str "Pricing method extracted from PDF"),
          ("currency", Json.str "USD"),
          ("total_cost", Json.str "Amount extracted from PDF")]),
        ("delivery_documents", Json.obj [
          ("deadline", Json.str "Deadline extracted from PDF"),
          ("required_documents", Json.arr [
            Json.str "Invoice",
            Json.str "Bill of Lading",
            Json.str "Certificate of Origin",
            Json.str "Packing List"])])]),
      ("text", Json.str ("Full text extracted from PDF file: " ++ output_filename)),
      ("metadata", Json.obj [
        ("processed_date", Json.str env.now_iso),
        ("source_file", Json.str output_filename),
        ("processing_method", Json.str "Automated PDF extraction")])] :=
  ⟨rfl, rfl⟩

/-- Claim C3: a validation POST whose JSON body has truthy filename,
field_path and status values is answered with success and Validation saved,
and the server state is returned untouched; the decision is never
persisted. -/
theorem save_validation_pure (st : AppState) (exc : String)
    (kvs : List (String × Json))
    (h1 : truthyOpt (dictGet kvs "filename") = true)
    (h2 : truthyOpt (dictGet kvs "field_path") = true)
    (h3 : truthyOpt (dictGet kvs "status") = true) :
    save_validation st exc (some (Json.obj kvs)) =
      (⟨200, Json.obj [("success", Json.bool true),
        ("message", Json.str "Validation saved")]⟩, st) := by
  simp [save_validation, h1, h2, h3]

/-- Witness for C3 at a concrete body and state. -/
theorem save_validation_pure_witness :
    save_validation stEmpty "boom" (some (Json.obj [
      ("filename", Json.str "a.json"),
      ("field_path", Json.str "fields.date"),
      ("status", Json.str "approved")])) =
      (⟨200, Json.obj [("success", Json.bool true),
        ("message", Json.str "Validation saved")]⟩, stEmpty) :=
  save_validation_pure stEmpty "boom" _ (by decide) (by decide) (by decide)

/-- Claim C5: an upload whose file part is present, non-empty and a pdf,
but whose content exceeds 16 times 1024 times 1024 bytes, is rejected with
status 400 and the File too large error, and the state is returned exactly
as it was, so nothing has been written to either folder. -/
theorem upload_rejects_oversized_file (env : Env) (st : AppState)
    (f c : String) (rf : Bool)
    (hname : f ≠ "")
    (hallowed : allowed_file f = true)
    (hsize : MAX_FILE_SIZE < pyLen c) :
    upload_pdf env st (some ⟨f, c⟩) rf =
      (errResp "File too large. Maximum size is 16MB", st) := by
  simp [upload_pdf, hname, hallowed, hsize]

/-- Witness for C5 at a concrete oversized upload. -/
theorem upload_rejects_oversized_file_witness :
    upload_pdf envW stEmpty (some ⟨"b.pdf", bigContent⟩) false =
      (errResp "File too large. Maximum size is 16MB", stEmpty) :=
  upload_rejects_oversized_file envW stEmpty "b.pdf" bigContent false
    (by decide) (by decide)
    (by show MAX_FILE_SIZE < (List.replicate (MAX_FILE_SIZE + 1) 'a').length
        rw [List.length_replicate]
        omega)

/-- Claim C6: allowed_file accepts exactly the names that contain a dot and
whose text after the last dot is pdf up to case; in particular a bare .pdf
and mixed-case extensions are accepted and dotless names are rejected. -/
theorem allowed_file_characterization (f : String) :
    allowed_file f = true ↔
      ∃ a b : List Char, f.data = a ++ '.' :: b ∧ '.' ∉ b ∧
        pyLower (String.mk b) = "pdf" := by
  constructor
  · intro h
    rw [allowed_file, Bool.and_eq_true, decide_eq_true_iff, decide_eq_true_iff] at h
    obtain ⟨hdot, hext⟩ := h
    have hext' : pyLower (afterLastSep '.' f) = "pdf" := by
      simpa [ALLOWED_EXTENSIONS] using hext
    have hdotr : '.' ∈ f.data.reverse := List.mem_reverse.mpr hdot
    obtain ⟨t, ht⟩ := dropWhile_of_mem_sep '.' f.data.reverse hdotr
    have hsplit := List.takeWhile_append_dropWhile
      (p := fun c => decide (c ≠ '.')) (l := f.data.reverse)
    refine ⟨t.reverse, (f.data.reverse.takeWhile (fun c => decide (c ≠ '.'))).reverse,
      ?_, ?_, hext'⟩
    · conv_lhs => rw [← List.reverse_reverse f.data, ← hsplit, ht]
      simp [List.reverse_append]
    · intro hmem
      have := List.mem_takeWhile_imp (List.mem_reverse.mp hmem)
      simp at this
  · rintro ⟨a, b, heq, hb, hpl⟩
    rw [allowed_file, Bool.and_eq_true, decide_eq_true_iff, decide_eq_true_iff]
    constructor
    · rw [heq]; simp
    · have hafter : afterLastSep '.' f = String.mk b := by
        rw [afterLastSep, heq]
        have hrev : (a ++ '.' :: b).reverse = b.reverse ++ '.' :: a.reverse := by
          simp [List.reverse_append]
        rw [hrev, takeWhile_append_sep '.' a.reverse b.reverse
          (fun x hx => fun hxe => hb (hxe ▸ List.mem_reverse.mp hx)),
          List.reverse_reverse]
      rw [hafter, hpl]
      simp [ALLOWED_EXTENSIONS]

/-- Witness for C6: a mixed-case extension is accepted, through the
characterization. -/
theorem allowed_file_characterization_witness : allowed_file "X.PDF" = true :=
  (allowed_file_characterization "X.PDF").mpr
    ⟨['X'], ['P', 'D', 'F'], by decide, by decide, by decide⟩

/-- Claim C2: when the JSON twin of the (secured) file name exists and
decodes, and the PDF exists, the excerpts endpoint answers 200 with exactly
the value the external helper extract_pdf_excerpts returns on the PDF path
and the decoded JSON, for every possible behaviour of that helper; the
handler adds no excerpt logic of its own.  The helper has no definition in
the given source, so it is an abstract field of the environment here. -/
theorem get_pdf_excerpts_passthrough (env : Env) (st : AppState)
    (fname raw pdf : String) (jd : Json)
    (hjson : st.jsonFolder
      (pyReplace (env.secure_filename fname) ".pdf" ".json") = some raw)
    (hload : env.json_loads raw = some jd)
    (hpdf : st.uploads (env.secure_filename fname) = some pdf) :
    get_pdf_excerpts env st fname = ⟨200, Json.obj [
      ("success", Json.bool true),
      ("excerpts", env.extract_pdf_excerpts
        (pathJoin UPLOAD_FOLDER (env.secure_filename fname)) jd),
      ("filename", Json.str (env.secure_filename fname))]⟩ := by
  simp [get_pdf_excerpts, hjson, hload, hpdf]

/-- Witness for C2 at a concrete environment and state. -/
theorem get_pdf_excerpts_passthrough_witness :
    get_pdf_excerpts envW stW "a.pdf" = ⟨200, Json.obj [
      ("success", Json.bool true),
      ("excerpts", envW.extract_pdf_excerpts
        (pathJoin UPLOAD_FOLDER (envW.secure_filename "a.pdf")) (Json.num 5)),
      ("filename", Json.str (envW.secure_filename "a.pdf"))]⟩ :=
  get_pdf_excerpts_passthrough envW stW "a.pdf" "RAW" "PDFBYTES" (Json.num 5)
    (by decide) rfl (by decide)

/-- Claim C4: a successful upload has written the generated JSON file under
the json folder, answers the same success response whether or not the PDF
removal failed, and when the removal succeeded the saved PDF is gone, so a
later GET of /uploads/ with that name is answered 404; secure_filename is
assumed idempotent, as the werkzeug function is. -/
theorem upload_success_writes_json_and_deletes_pdf (env : Env) (st : AppState)
    (filePart : Option UploadedFile) (rf : Bool)
    (resp : HttpResponse) (st' : AppState)
    (hidem : ∀ s, env.secure_filename (env.secure_filename s) = env.secure_filename s)
    (hrun : upload_pdf env st filePart rf = (resp, st'))
    (hsucc : resp.status = 200) :
    ∃ file, filePart = some file ∧
      (st'.jsonFolder
        (beforeLastSep '.' (env.secure_filename file.filename) ++ ".json")).isSome = true ∧
      (∀ rf', (upload_pdf env st filePart rf').1 = resp) ∧
      (rf = false →
        st'.uploads (env.secure_filename file.filename) = none ∧
        (serve_uploaded_file env st' (env.secure_filename file.filename)).status = 404) := by
  cases filePart with
  | none =>
    exfalso
    simp only [upload_pdf] at hrun
    injection hrun with hr1 hr2
    rw [← hr1] at hsucc
    simp [errResp] at hsucc
  | some file =>
    refine ⟨file, rfl, ?_⟩
    simp only [upload_pdf] at hrun
    by_cases h1 : file.filename = ""
    · rw [if_pos h1] at hrun
      injection hrun with hr1 hr2
      rw [← hr1] at hsucc
      simp [errResp] at hsucc
    rw [if_neg h1] at hrun
    by_cases h2 : allowed_file file.filename = false
    · rw [if_pos h2] at hrun
      injection hrun with hr1 hr2
      rw [← hr1] at hsucc
      simp [errResp] at hsucc
    rw [if_neg h2] at hrun
    by_cases h3 : MAX_FILE_SIZE < pyLen file.content
    · rw [if_pos h3] at hrun
      injection hrun with hr1 hr2
      rw [← hr1] at hsucc
      simp [errResp] at hsucc
    rw [if_neg h3, if_neg h1] at hrun
    injection hrun with hr1 hr2
    subst hr1
    subst hr2
    refine ⟨?_, ?_, ?_⟩
    · cases rf <;> simp [fsInsert]
    · intro rf'
      simp [upload_pdf, h1, h2, h3]
    · intro hrf
      subst hrf
      simp only [Bool.false_eq_true, if_false]
      constructor
      · simp [fsErase]
      · simp [serve_uploaded_file, hidem, fsErase]

/-- Witness for C4 at a concrete upload. -/
theorem upload_success_witness :
    ∃ file, (some (⟨"a.pdf", "CONTENT"⟩ : UploadedFile)) = some file ∧
      (((upload_pdf envW stEmpty (some ⟨"a.pdf", "CONTENT"⟩) false).2).jsonFolder
        (beforeLastSep '.' (envW.secure_filename file.filename) ++ ".json")).isSome = true ∧
      (∀ rf', (upload_pdf envW stEmpty (some ⟨"a.pdf", "CONTENT"⟩) rf').1 =
        (upload_pdf envW stEmpty (some ⟨"a.pdf", "CONTENT"⟩) false).1) ∧
      (false = false →
        ((upload_pdf envW stEmpty (some ⟨"a.pdf", "CONTENT"⟩) false).2).uploads
          (envW.secure_filename file.filename) = none ∧
        (serve_uploaded_file envW
          (upload_pdf envW stEmpty (some ⟨"a.pdf", "CONTENT"⟩) false).2
          (envW.secure_filename file.filename)).status = 404) :=
  upload_success_writes_json_and_deletes_pdf envW stEmpty
    (some ⟨"a.pdf", "CONTENT"⟩) false
    (upload_pdf envW stEmpty (some ⟨"a.pdf", "CONTENT"⟩) false).1
    (upload_pdf envW stEmpty (some ⟨"a.pdf", "CONTENT"⟩) false).2
    (fun s => rfl) rfl (by decide)

/-!
Lemmas about the Evidence Linker pipeline.
-/

theorem exactLoop_mem (text value : List Char) :
    ∀ fuel i se, se ∈ exactLoop text value fuel i →
      matchAt text value se.1 = true ∧ se.2 = se.1 + value.length := by
  intro fuel
  induction fuel with
  | zero => intro i se h; simp [exactLoop] at h
  | succ n ih =>
    intro i se h
    rw [exactLoop] at h
    by_cases hg : i + value.length ≤ text.length
    · rw [if_pos hg] at h
      by_cases hm : matchAt text value i = true
      · rw [if_pos hm] at h
        rcases List.mem_cons.mp h with heq | htail
        · subst heq; exact ⟨hm, rfl⟩
        · exact ih _ _ htail
      · rw [if_neg hm] at h
        exact ih _ _ h
    · rw [if_neg hg] at h
      simp at h

theorem exactLoop_ne_nil (text value : List Char) (j : Nat)
    (hj : j + value.length ≤ text.length)
    (hm : matchAt text value j = true) :
    ∀ fuel i, i ≤ j → text.length + 1 - i ≤ fuel →
      exactLoop text value fuel i ≠ [] := by
  intro fuel
  induction fuel with
  | zero =>
    intro i hij hfuel
    exfalso
    omega
  | succ n ih =>
    intro i hij hfuel
    rw [exactLoop]
    have hg : i + value.length ≤ text.length := by omega
    rw [if_pos hg]
    by_cases hmi : matchAt text value i = true
    · simp [hmi]
    · rw [if_neg hmi]
      have hne : i ≠ j := fun h => hmi (h ▸ hm)
      exact ih (i + 1) (by omega) (by omega)

theorem insertSpan_mem {x s : EvidenceSpan} :
    ∀ {l : List EvidenceSpan}, x ∈ insertSpan s l → x = s ∨ x ∈ l := by
  intro l
  induction l with
  | nil =>
    intro h
    rw [insertSpan] at h
    simp at h
    exact Or.inl h
  | cons t ts ih =>
    intro h
    rw [insertSpan] at h
    by_cases hb : spanBefore s t = true
    · rw [if_pos hb] at h
      rcases List.mem_cons.mp h with h1 | h1
      · exact Or.inl h1
      · exact Or.inr h1
    · rw [if_neg hb] at h
      rcases List.mem_cons.mp h with h1 | h1
      · exact Or.inr (h1 ▸ List.mem_cons_self t (insertSpan s ts)) |>.imp id
          (fun _ => h1 ▸ List.mem_cons_self t ts)
      · rcases ih h1 with h2 | h2
        · exact Or.inl h2
        · exact Or.inr (List.mem_cons_of_mem t h2)

theorem insertSpan_ne_nil (s : EvidenceSpan) (l : List EvidenceSpan) :
    insertSpan s l ≠ [] := by
  cases l with
  | nil => simp [insertSpan]
  | cons t ts =>
    rw [insertSpan]
    by_cases hb : spanBefore s t = true
    · rw [if_pos hb]; simp
    · rw [if_neg hb]; simp

theorem sortSpans_mem {x : EvidenceSpan} :
    ∀ {l : List EvidenceSpan}, x ∈ sortSpans l → x ∈ l := by
  intro l
  induction l with
  | nil => intro h; simpa [sortSpans] using h
  | cons a as ih =>
    intro h
    have h' : x ∈ insertSpan a (sortSpans as) := h
    rcases insertSpan_mem h' with h1 | h1
    · exact h1 ▸ List.mem_cons_self a as
    · exact List.mem_cons_of_mem a (ih h1)

theorem sortSpans_ne_nil {l : List EvidenceSpan} (h : l ≠ []) :
    sortSpans l ≠ [] := by
  cases l with
  | nil => exact absurd rfl h
  | cons a as => exact insertSpan_ne_nil a (sortSpans as)

theorem tooMuchOverlap_false_iff {a b : EvidenceSpan} :
    tooMuchOverlap a b = false ↔ NoExcessOverlap a b := by
  rw [tooMuchOverlap, decide_eq_false_iff_not, Nat.not_lt]
  exact Iff.rfl

theorem merge_foldl_pairwise :
    ∀ (l acc : List EvidenceSpan), acc.Pairwise NoExcessOverlap →
      (l.foldl mergeKeep acc).Pairwise NoExcessOverlap := by
  intro l
  induction l with
  | nil => intro acc h; exact h
  | cons s rest ih =>
    intro acc h
    rw [List.foldl_cons]
    apply ih
    rw [mergeKeep]
    by_cases hany : acc.any (fun t => tooMuchOverlap t s) = true
    · rw [if_pos hany]; exact h
    · rw [if_neg hany]
      rw [List.pairwise_append]
      refine ⟨h, List.pairwise_singleton _ _, ?_⟩
      intro x hx y hy
      rw [List.mem_singleton] at hy
      have hall : ∀ t ∈ acc, tooMuchOverlap t s = false := by
        intro t ht
        cases hts : tooMuchOverlap t s with
        | false => rfl
        | true => exact absurd (List.any_eq_true.mpr ⟨t, ht, hts⟩) hany
      rw [hy]
      exact tooMuchOverlap_false_iff.mp (hall x hx)

theorem merge_foldl_subset :
    ∀ (l acc : List EvidenceSpan) (x : EvidenceSpan),
      x ∈ l.foldl mergeKeep acc → x ∈ acc ∨ x ∈ l := by
  intro l
  induction l with
  | nil => intro acc x h; exact Or.inl h
  | cons s rest ih =>
    intro acc x h
    rw [List.foldl_cons] at h
    rcases ih (mergeKeep acc s) x h with h1 | h1
    · rw [mergeKeep] at h1
      by_cases hany : acc.any (fun t => tooMuchOverlap t s) = true
      · rw [if_pos hany] at h1
        exact Or.inl h1
      · rw [if_neg hany] at h1
        rcases List.mem_append.mp h1 with h2 | h2
        · exact Or.inl h2
        · rw [List.mem_singleton] at h2
          exact Or.inr (h2 ▸ List.mem_cons_self s rest)
    · exact Or.inr (List.mem_cons_of_mem s h1)

theorem mergeKeep_ne_nil {acc : List EvidenceSpan} (s : EvidenceSpan)
    (h : acc ≠ []) : mergeKeep acc s ≠ [] := by
  rw [mergeKeep]
  by_cases hany : acc.any (fun t => tooMuchOverlap t s) = true
  · rw [if_pos hany]; exact h
  · rw [if_neg hany]
    simp

theorem merge_foldl_ne_nil :
    ∀ (l acc : List EvidenceSpan), acc ≠ [] → l.foldl mergeKeep acc ≠ [] := by
  intro l
  induction l with
  | nil => intro acc h; exact h
  | cons s rest ih =>
    intro acc h
    rw [List.foldl_cons]
    exact ih _ (mergeKeep_ne_nil s h)

theorem mergeSpans_pairwise (l : List EvidenceSpan) :
    (mergeSpans l).Pairwise NoExcessOverlap :=
  merge_foldl_pairwise l [] List.Pairwise.nil

theorem mergeSpans_subset {l : List EvidenceSpan} {x : EvidenceSpan}
    (h : x ∈ mergeSpans l) : x ∈ l := by
  rcases merge_foldl_subset l [] x h with h1 | h1
  · cases h1
  · exact h1

theorem mergeSpans_ne_nil {l : List EvidenceSpan} (h : l ≠ []) :
    mergeSpans l ≠ [] := by
  cases l with
  | nil => exact absurd rfl h
  | cons a rest =>
    rw [mergeSpans, List.foldl_cons]
    apply merge_foldl_ne_nil
    rw [mergeKeep]
    simp

theorem take_ne_nil_of_pos {α : Type} {l : List α} {n : Nat}
    (hn : 1 ≤ n) (h : l ≠ []) : l.take n ≠ [] := by
  cases l with
  | nil => exact absurd rfl h
  | cons a as =>
    cases n with
    | zero => omega
    | succ m => simp [List.take]

/-!
Claim theorems about the Evidence Linker.
-/

/-- Claim C8: for a non-empty document, link succeeds and contains an entry
for every field path the Flattener produces; when the Matcher finds nothing
for a field the entry is present with an empty span list rather than being
omitted. -/
theorem link_retains_all_field_paths (d : DocumentText) (fm : FieldTree)
    (cfg : LinkConfig) (hne : d.raw_text ≠ []) :
    ∃ r, link d fm cfg = LResult.ok r ∧
      ∀ pv ∈ flatten fm, ∃ spans, (joinPath pv.1, spans) ∈ r ∧
        (matchField d pv.2.data cfg = [] → spans = []) := by
  refine ⟨(flatten fm).map (fun e => (joinPath e.1, processField d e.2.data cfg)), ?_, ?_⟩
  · rw [link, if_neg]
    simp [List.isEmpty_iff, hne]
  · intro pv hpv
    refine ⟨processField d pv.2.data cfg, List.mem_map_of_mem _ hpv, ?_⟩
    intro hm
    simp [processField, hm, sortSpans, mergeSpans]

/-- Witness for C8 at a document containing no trace of the field value. -/
theorem link_retains_all_field_paths_witness :
    ∃ r, link ⟨"ab".data, []⟩
      (FieldTree.obj (FieldObj.cons "a" (FieldTree.str "zz") FieldObj.nil))
      defaultConfig = LResult.ok r ∧
      ∀ pv ∈ flatten (FieldTree.obj (FieldObj.cons "a" (FieldTree.str "zz") FieldObj.nil)),
        ∃ spans, (joinPath pv.1, spans) ∈ r ∧
          (matchField ⟨"ab".data, []⟩ pv.2.data defaultConfig = [] → spans = []) :=
  link_retains_all_field_paths ⟨"ab".data, []⟩
    (FieldTree.obj (FieldObj.cons "a" (FieldTree.str "zz") FieldObj.nil))
    defaultConfig (by decide)

/-- Claim C9: in every field's final span list produced by link, no two
spans overlap by more than fifty percent of the shorter span's length. -/
theorem link_overlap_merge_invariant (d : DocumentText) (fm : FieldTree)
    (cfg : LinkConfig) (r : List (String × List EvidenceSpan))
    (h : link d fm cfg = LResult.ok r) :
    ∀ ks ∈ r, ks.2.Pairwise NoExcessOverlap := by
  intro ks hks
  rw [link] at h
  by_cases hemp : d.raw_text.isEmpty = true
  · rw [if_pos hemp] at h
    cases h
  · rw [if_neg hemp] at h
    injection h with h'
    subst h'
    obtain ⟨e, he, heq⟩ := List.mem_map.mp hks
    rw [← heq]
    exact (mergeSpans_pairwise _).sublist (List.take_sublist _ _)

/-- Witness for C9 at a concrete link run and result entry. -/
theorem link_overlap_merge_invariant_witness :
    (("f", [(⟨0, 2, 0, 1⟩ : EvidenceSpan)]) : String × List EvidenceSpan).2.Pairwise
      NoExcessOverlap :=
  link_overlap_merge_invariant ⟨"aa".data, []⟩
    (FieldTree.obj (FieldObj.cons "f" (FieldTree.str "aa") FieldObj.nil))
    defaultConfig [("f", [⟨0, 2, 0, 1⟩])] (by decide)
    ("f", [⟨0, 2, 0, 1⟩]) (by decide)

/-- Claim C10: page_of is monotone non-decreasing on offsets within the
text: both calls succeed and the first page index is at most the second. -/
theorem page_of_monotone (d : DocumentText) (o1 o2 : Int)
    (h0 : 0 ≤ o1) (h12 : o1 ≤ o2) (h2 : o2 ≤ (d.raw_text.length : Int)) :
    ∃ p1 p2, page_of d o1 = LResult.ok p1 ∧ page_of d o2 = LResult.ok p2 ∧
      p1 ≤ p2 := by
  refine ⟨pageIdx d o1.toNat, pageIdx d o2.toNat, ?_, ?_, ?_⟩
  · rw [page_of, if_neg (by omega)]
  · rw [page_of, if_neg (by omega)]
  · rw [pageIdx, pageIdx]
    apply Nat.sub_le_sub_right
    apply List.countP_mono_left
    intro b hb
    simp only [decide_eq_true_iff]
    omega

/-- Witness for C10 at a concrete document and pair of offsets. -/
theorem page_of_monotone_witness :
    ∃ p1 p2, page_of ⟨"abc".data, [1, 2]⟩ 0 = LResult.ok p1 ∧
      page_of ⟨"abc".data, [1, 2]⟩ 2 = LResult.ok p2 ∧ p1 ≤ p2 :=
  page_of_monotone ⟨"abc".data, [1, 2]⟩ 0 2 (by decide) (by decide) (by decide)

/-- Counterexample to claim C7 as stated.  In the document Aaa the value aa
of field f is non-empty and occurs verbatim at offset 1, yet the first
matching stage is case-insensitive and collects non-overlapping occurrences
from the left, so the whole result for f is the single span over offsets 0
to 2; its slice Aa differs from the field value under plain whitespace
normalization, which never changes letter case. -/
theorem verbatim_value_whitespace_slice_cex :
    ("aa".data ≠ [] ∧ ∃ i, (("Aaa".data).drop i).take "aa".data.length = "aa".data) ∧
    link ⟨"Aaa".data, []⟩
      (FieldTree.obj (FieldObj.cons "f" (FieldTree.str "aa") FieldObj.nil))
      defaultConfig = LResult.ok [("f", [⟨0, 2, 0, 1⟩])] ∧
    (∀ sp ∈ [(⟨0, 2, 0, 1⟩ : EvidenceSpan)],
      ¬ wsNormalize (sliceOf "Aaa".data sp) = wsNormalize "aa".data) :=
  ⟨⟨by decide, ⟨1, by decide⟩⟩, by decide, by decide⟩

/-- Claim C7 as amended: for every field entry the Flattener produces whose
non-empty value occurs verbatim in the document, link returns, under any
configuration whose score floor is below 1 and which keeps at least one
result per field, at least one span of score 1 for that field whose slice
of raw_text equals the field value modulo the matcher's normalization,
that is, whitespace normalization together with case folding. -/
theorem link_exact_match_normalized_evidence (d : DocumentText)
    (fm : FieldTree) (cfg : LinkConfig) (p : List PathKey) (v : String)
    (hmem : (p, v) ∈ flatten fm)
    (hocc : ∃ i, (d.raw_text.drop i).take v.data.length = v.data)
    (hv : v.data ≠ [])
    (hfloor : cfg.score_floor < 1)
    (hmax : 1 ≤ cfg.max_results_per_field) :
    ∃ r, link d fm cfg = LResult.ok r ∧
      ∃ spans, (joinPath p, spans) ∈ r ∧
        ∃ sp ∈ spans, sp.score = 1 ∧
          normalize (sliceOf d.raw_text sp) = normalize v.data := by
  obtain ⟨j, hj⟩ := hocc
  have hvlen : v.data.length ≠ 0 := fun h => hv (List.length_eq_zero.mp h)
  have hlen : j + v.data.length ≤ d.raw_text.length := by
    have h1 : ((d.raw_text.drop j).take v.data.length).length = v.data.length := by
      rw [hj]
    rw [List.length_take, List.length_drop] at h1
    omega
  have hmj : matchAt d.raw_text v.data j = true := by
    rw [matchAt, decide_eq_true_iff, hj]
  have hne : d.raw_text ≠ [] := by
    intro h0
    have h00 : d.raw_text.length = 0 := by rw [h0]; rfl
    omega
  have hloop : exactLoop d.raw_text v.data (d.raw_text.length + 1) 0 ≠ [] :=
    exactLoop_ne_nil d.raw_text v.data j hlen hmj (d.raw_text.length + 1) 0
      (Nat.zero_le j) (by omega)
  have hs1ne : exactSpans d v.data ≠ [] := by
    rw [exactSpans]
    intro hmap
    exact hloop (List.map_eq_nil_iff.mp hmap)
  have hprops : ∀ sp ∈ exactSpans d v.data, sp.score = 1 ∧
      matchAt d.raw_text v.data sp.start = true ∧
      sp.stop = sp.start + v.data.length := by
    intro sp hsp
    rw [exactSpans] at hsp
    obtain ⟨se, hse, hspEq⟩ := List.mem_map.mp hsp
    obtain ⟨hm, he⟩ := exactLoop_mem d.raw_text v.data _ _ se hse
    rw [← hspEq]
    exact ⟨rfl, hm, he⟩
  have hany : (exactSpans d v.data).any
      (fun sp => decide (cfg.score_floor < sp.score)) = true := by
    rw [List.any_eq_true]
    obtain ⟨sp, hsp⟩ := List.exists_mem_of_ne_nil _ hs1ne
    refine ⟨sp, hsp, ?_⟩
    rw [(hprops sp hsp).1]
    exact decide_eq_true hfloor
  have hmf : matchField d v.data cfg = exactSpans d v.data := by
    rw [matchField, if_neg hv]
    simp only [hany, if_true]
  have hpf : processField d v.data cfg =
      (mergeSpans (sortSpans (exactSpans d v.data))).take cfg.max_results_per_field := by
    rw [processField, hmf]
  have hm_ne : mergeSpans (sortSpans (exactSpans d v.data)) ≠ [] :=
    mergeSpans_ne_nil (sortSpans_ne_nil hs1ne)
  have htake_ne :
      (mergeSpans (sortSpans (exactSpans d v.data))).take cfg.max_results_per_field ≠ [] :=
    take_ne_nil_of_pos hmax hm_ne
  obtain ⟨sp, hsp⟩ := List.exists_mem_of_ne_nil _ htake_ne
  have hsp1 : sp ∈ exactSpans d v.data :=
    sortSpans_mem (mergeSpans_subset (List.take_subset _ _ hsp))
  obtain ⟨hscore, hmatch, hstop⟩ := hprops sp hsp1
  refine ⟨(flatten fm).map (fun e => (joinPath e.1, processField d e.2.data cfg)), ?_,
    processField d v.data cfg, ?_, sp, ?_, hscore, ?_⟩
  · rw [link, if_neg]
    simp [List.isEmpty_iff, hne]
  · exact List.mem_map_of_mem (fun e => (joinPath e.1, processField d e.2.data cfg)) hmem
  · rw [hpf]
    exact hsp
  · rw [matchAt, decide_eq_true_iff] at hmatch
    rw [sliceOf, hstop, Nat.add_sub_cancel_left]
    exact hmatch

/-- Witness for the amended C7 at a concrete document and field mapping. -/
theorem link_exact_match_normalized_evidence_witness :
    ∃ r, link ⟨"say aa twice".data, []⟩
      (FieldTree.obj (FieldObj.cons "f" (FieldTree.str "aa") FieldObj.nil))
      defaultConfig = LResult.ok r ∧
      ∃ spans, (joinPath [PathKey.key "f"], spans) ∈ r ∧
        ∃ sp ∈ spans, sp.score = 1 ∧
          normalize (sliceOf "say aa twice".data sp) = normalize "aa".data :=
  link_exact_match_normalized_evidence ⟨"say aa twice".data, []⟩
    (FieldTree.obj (FieldObj.cons "f" (FieldTree.str "aa") FieldObj.nil))
    defaultConfig [PathKey.key "f"] "aa" (by decide) ⟨4, by decide⟩
    (by decide) (by decide) (by decide)

end Phototype
